import Mathlib

/-!
Shallow embedding of the speedstumps repository: the decision-stump SIMD
kernels of vectest.cc and the packed depth-2 tree kernels of vectest2.cc.
Machine floats are modelled as exact rationals; a 256-bit register is a
structure of eight rational lanes, a 128-bit register four lanes, and a
comparison mask a structure of booleans (the hardware all-ones/all-zeros
lanes).
-/

/-- One 256-bit register: eight single-precision lanes, low lane first. -/
structure V8 where
  l0 : ℚ
  l1 : ℚ
  l2 : ℚ
  l3 : ℚ
  l4 : ℚ
  l5 : ℚ
  l6 : ℚ
  l7 : ℚ
deriving DecidableEq

/-- One 128-bit register: four single-precision lanes, low lane first. -/
structure V4 where
  l0 : ℚ
  l1 : ℚ
  l2 : ℚ
  l3 : ℚ
deriving DecidableEq

/-- A 256-bit comparison mask: each lane is all-ones (true) or all-zeros. -/
structure M8 where
  m0 : Bool
  m1 : Bool
  m2 : Bool
  m3 : Bool
  m4 : Bool
  m5 : Bool
  m6 : Bool
  m7 : Bool
deriving DecidableEq

/-- A 128-bit comparison mask. -/
structure M4 where
  m0 : Bool
  m1 : Bool
  m2 : Bool
  m3 : Bool
deriving DecidableEq

/-- `_mm256_set_ps`: the first argument becomes the highest lane. -/
def mm256_set_ps (e7 e6 e5 e4 e3 e2 e1 e0 : ℚ) : V8 :=
  ⟨e0, e1, e2, e3, e4, e5, e6, e7⟩

/-- `_mm256_setzero_ps`. -/
def mm256_setzero_ps : V8 := ⟨0, 0, 0, 0, 0, 0, 0, 0⟩

/-- `_mm_setzero_ps`. -/
def mm_setzero_ps : V4 := ⟨0, 0, 0, 0⟩

/-- `_mm256_add_ps`: lane-wise addition. -/
def mm256_add_ps (a b : V8) : V8 :=
  ⟨a.l0 + b.l0, a.l1 + b.l1, a.l2 + b.l2, a.l3 + b.l3,
   a.l4 + b.l4, a.l5 + b.l5, a.l6 + b.l6, a.l7 + b.l7⟩

/-- `_mm_add_ps`: lane-wise addition. -/
def mm_add_ps (a b : V4) : V4 :=
  ⟨a.l0 + b.l0, a.l1 + b.l1, a.l2 + b.l2, a.l3 + b.l3⟩

/-- `_mm256_hadd_ps`: pairwise horizontal addition of two registers. -/
def mm256_hadd_ps (a b : V8) : V8 :=
  ⟨a.l0 + a.l1, a.l2 + a.l3, b.l0 + b.l1, b.l2 + b.l3,
   a.l4 + a.l5, a.l6 + a.l7, b.l4 + b.l5, b.l6 + b.l7⟩

/-- `_mm_hadd_ps`: pairwise horizontal addition of two registers. -/
def mm_hadd_ps (a b : V4) : V4 :=
  ⟨a.l0 + a.l1, a.l2 + a.l3, b.l0 + b.l1, b.l2 + b.l3⟩

/-- `_mm256_extractf128_ps(a, 1)`: the high four lanes. -/
def mm256_extractf128_ps_hi (a : V8) : V4 := ⟨a.l4, a.l5, a.l6, a.l7⟩

/-- `_mm256_castps256_ps128`: the low four lanes. -/
def mm256_castps256_ps128 (a : V8) : V4 := ⟨a.l0, a.l1, a.l2, a.l3⟩

/-- `_mm_add_ss`: add only the lowest lanes, keep the rest of `a`. -/
def mm_add_ss (a b : V4) : V4 := ⟨a.l0 + b.l0, a.l1, a.l2, a.l3⟩

/-- `_mm_cvtss_f32`: extract the lowest lane. -/
def mm_cvtss_f32 (a : V4) : ℚ := a.l0

/-- `horizontal_add` on a 256-bit register, exactly as written in the source:
two `hadd`s, extract the high half, add the low scalar lanes. -/
def horizontal_add (a : V8) : ℚ :=
  let a1 := mm256_hadd_ps a a
  let a2 := mm256_hadd_ps a1 a1
  let t1 := mm_add_ss (mm256_castps256_ps128 a2) (mm256_extractf128_ps_hi a2)
  mm_cvtss_f32 t1

/-- `horizontal_add` on a 128-bit register. -/
def horizontal_add4 (a : V4) : ℚ :=
  let a1 := mm_hadd_ps a a
  let a2 := mm_hadd_ps a1 a1
  mm_cvtss_f32 a2

/-- `_mm256_cmp_ps(a, b, 30)`, predicate `_CMP_GT_OQ`: lane-wise `a > b`. -/
def mm256_cmp_ps_gt (a b : V8) : M8 :=
  ⟨decide (b.l0 < a.l0), decide (b.l1 < a.l1), decide (b.l2 < a.l2), decide (b.l3 < a.l3),
   decide (b.l4 < a.l4), decide (b.l5 < a.l5), decide (b.l6 < a.l6), decide (b.l7 < a.l7)⟩

/-- `_mm_cmp_ps(a, b, 30)`, predicate `_CMP_GT_OQ`: lane-wise `a > b`. -/
def mm_cmp_ps_gt (a b : V4) : M4 :=
  ⟨decide (b.l0 < a.l0), decide (b.l1 < a.l1), decide (b.l2 < a.l2), decide (b.l3 < a.l3)⟩

/-- `_mm256_cmp_ps(a, b, 18)`, predicate `_CMP_LE_OQ`: lane-wise `a <= b`. -/
def mm256_cmp_ps_le (a b : V8) : M8 :=
  ⟨decide (a.l0 ≤ b.l0), decide (a.l1 ≤ b.l1), decide (a.l2 ≤ b.l2), decide (a.l3 ≤ b.l3),
   decide (a.l4 ≤ b.l4), decide (a.l5 ≤ b.l5), decide (a.l6 ≤ b.l6), decide (a.l7 ≤ b.l7)⟩

/-- `_mm256_and_si256` on comparison masks: lane-wise conjunction. -/
def mm256_and_si256 (a b : M8) : M8 :=
  ⟨a.m0 && b.m0, a.m1 && b.m1, a.m2 && b.m2, a.m3 && b.m3,
   a.m4 && b.m4, a.m5 && b.m5, a.m6 && b.m6, a.m7 && b.m7⟩

/-- `_mm256_blendv_ps(x, y, m)`: takes `y` where the mask lane is set. -/
def mm256_blendv_ps (x y : V8) (m : M8) : V8 :=
  ⟨if m.m0 then y.l0 else x.l0, if m.m1 then y.l1 else x.l1,
   if m.m2 then y.l2 else x.l2, if m.m3 then y.l3 else x.l3,
   if m.m4 then y.l4 else x.l4, if m.m5 then y.l5 else x.l5,
   if m.m6 then y.l6 else x.l6, if m.m7 then y.l7 else x.l7⟩

/-- `_mm_blendv_ps(x, y, m)`: takes `y` where the mask lane is set. -/
def mm_blendv_ps (x y : V4) (m : M4) : V4 :=
  ⟨if m.m0 then y.l0 else x.l0, if m.m1 then y.l1 else x.l1,
   if m.m2 then y.l2 else x.l2, if m.m3 then y.l3 else x.l3⟩

/-- `_mm256_maskstore_ps` into a zeroed register: keeps a lane where the mask
is set, leaves zero elsewhere. -/
def mm256_maskstore_ps (m : M8) (v : V8) : V8 :=
  ⟨if m.m0 then v.l0 else 0, if m.m1 then v.l1 else 0,
   if m.m2 then v.l2 else 0, if m.m3 then v.l3 else 0,
   if m.m4 then v.l4 else 0, if m.m5 then v.l5 else 0,
   if m.m6 then v.l6 else 0, if m.m7 then v.l7 else 0⟩

/-- Load the `i`-th aligned 8-lane chunk of a flat array. -/
def loadV8 (l : List ℚ) (i : Nat) : V8 :=
  ⟨l.getD (8 * i) 0, l.getD (8 * i + 1) 0, l.getD (8 * i + 2) 0, l.getD (8 * i + 3) 0,
   l.getD (8 * i + 4) 0, l.getD (8 * i + 5) 0, l.getD (8 * i + 6) 0, l.getD (8 * i + 7) 0⟩

/-- Load the `i`-th aligned 4-lane chunk of a flat array. -/
def loadV4 (l : List ℚ) (i : Nat) : V4 :=
  ⟨l.getD (4 * i) 0, l.getD (4 * i + 1) 0, l.getD (4 * i + 2) 0, l.getD (4 * i + 3) 0⟩

/-- `selectf` of vectest.cc: the 256-bit (8-wide) stump kernel. -/
def selectf (a b x y : List ℚ) (count : Nat) : ℚ :=
  let tot := (List.range (count >>> 3)).foldl
    (fun tot i =>
      let mask := mm256_cmp_ps_gt (loadV8 a i) (loadV8 b i)
      let res := mm256_blendv_ps (loadV8 x i) (loadV8 y i) mask
      mm256_add_ps tot res)
    mm256_setzero_ps
  horizontal_add tot / (count : ℚ)

/-- `selectf2` of vectest.cc: the 128-bit (4-wide) stump kernel. -/
def selectf2 (a b x y : List ℚ) (count : Nat) : ℚ :=
  let tot := (List.range (count >>> 2)).foldl
    (fun tot i =>
      let mask := mm_cmp_ps_gt (loadV4 a i) (loadV4 b i)
      let res := mm_blendv_ps (loadV4 x i) (loadV4 y i) mask
      mm_add_ps tot res)
    mm_setzero_ps
  horizontal_add4 tot / (count : ℚ)

/-- `selectslow` of vectest.cc: the scalar branching stump baseline. -/
def selectslow (a b x y : List ℚ) (count : Nat) : ℚ :=
  ((List.range count).foldl
    (fun total i => total + (if a.getD i 0 ≤ b.getD i 0 then x.getD i 0 else y.getD i 0))
    0) / (count : ℚ)

/-- The contribution of element `i` to the stump sum: `x[i]` when
`a[i] <= b[i]`, else `y[i]`. -/
def stump_term (a b x y : List ℚ) (i : Nat) : ℚ :=
  if a.getD i 0 ≤ b.getD i 0 then x.getD i 0 else y.getD i 0

/-! ### Helper lemmas for the stump kernels -/

theorem foldl_add_map {α : Type} (u : α → ℚ) : ∀ (l : List α) (c : ℚ),
    l.foldl (fun tot t => tot + u t) c = c + (l.map u).sum
  | [], c => by simp
  | t :: rest, c => by
    simp only [List.foldl_cons, List.map_cons, List.sum_cons]
    rw [foldl_add_map u rest (c + u t)]
    ring

theorem sum_range_add (g : Nat → ℚ) (n k : Nat) :
    ((List.range (n + k)).map g).sum
      = ((List.range n).map g).sum + ((List.range k).map (fun j => g (n + j))).sum := by
  rw [List.range_add]
  simp only [List.map_append, List.sum_append, List.map_map]
  rfl

theorem horizontal_add_eq (a : V8) :
    horizontal_add a = a.l0 + a.l1 + a.l2 + a.l3 + a.l4 + a.l5 + a.l6 + a.l7 := by
  cases a
  simp only [horizontal_add, mm256_hadd_ps, mm_add_ss, mm256_castps256_ps128,
    mm256_extractf128_ps_hi, mm_cvtss_f32]
  ring

theorem horizontal_add4_eq (a : V4) :
    horizontal_add4 a = a.l0 + a.l1 + a.l2 + a.l3 := by
  cases a
  simp only [horizontal_add4, mm_hadd_ps, mm_cvtss_f32]
  ring

theorem horizontal_add_add (a b : V8) :
    horizontal_add (mm256_add_ps a b) = horizontal_add a + horizontal_add b := by
  cases a; cases b
  simp only [horizontal_add_eq, mm256_add_ps]
  ring

theorem horizontal_add4_add (a b : V4) :
    horizontal_add4 (mm_add_ps a b) = horizontal_add4 a + horizontal_add4 b := by
  cases a; cases b
  simp only [horizontal_add4_eq, mm_add_ps]
  ring

theorem blend_lane (av bv xv yv : ℚ) :
    (if decide (bv < av) = true then yv else xv) = if av ≤ bv then xv else yv := by
  rcases le_or_lt av bv with h | h
  · simp [h, not_lt.2 h]
  · simp [h, not_le.2 h]

theorem selectf_chunk (a b x y : List ℚ) (i : Nat) :
    horizontal_add
        (mm256_blendv_ps (loadV8 x i) (loadV8 y i) (mm256_cmp_ps_gt (loadV8 a i) (loadV8 b i)))
      = ((List.range 8).map (fun j => stump_term a b x y (8 * i + j))).sum := by
  have h8 : List.range 8 = [0, 1, 2, 3, 4, 5, 6, 7] := by decide
  simp only [horizontal_add_eq, mm256_blendv_ps, mm256_cmp_ps_gt, loadV8, h8, List.map_cons,
    List.map_nil, List.sum_cons, List.sum_nil, stump_term, blend_lane]
  ring_nf

theorem selectf2_chunk (a b x y : List ℚ) (i : Nat) :
    horizontal_add4
        (mm_blendv_ps (loadV4 x i) (loadV4 y i) (mm_cmp_ps_gt (loadV4 a i) (loadV4 b i)))
      = ((List.range 4).map (fun j => stump_term a b x y (4 * i + j))).sum := by
  have h4 : List.range 4 = [0, 1, 2, 3] := by decide
  simp only [horizontal_add4_eq, mm_blendv_ps, mm_cmp_ps_gt, loadV4, h4, List.map_cons,
    List.map_nil, List.sum_cons, List.sum_nil, stump_term, blend_lane]
  ring_nf

theorem selectf_tot (a b x y : List ℚ) : ∀ (n : Nat),
    horizontal_add ((List.range n).foldl
        (fun tot i =>
          let mask := mm256_cmp_ps_gt (loadV8 a i) (loadV8 b i)
          let res := mm256_blendv_ps (loadV8 x i) (loadV8 y i) mask
          mm256_add_ps tot res)
        mm256_setzero_ps)
      = ((List.range (8 * n)).map (stump_term a b x y)).sum
  | 0 => by simp [horizontal_add_eq, mm256_setzero_ps]
  | n + 1 => by
    rw [List.range_succ, List.foldl_append, List.foldl_cons, List.foldl_nil]
    simp only
    rw [horizontal_add_add, selectf_tot a b x y n, selectf_chunk]
    rw [Nat.mul_succ, sum_range_add]

theorem selectf2_tot (a b x y : List ℚ) : ∀ (n : Nat),
    horizontal_add4 ((List.range n).foldl
        (fun tot i =>
          let mask := mm_cmp_ps_gt (loadV4 a i) (loadV4 b i)
          let res := mm_blendv_ps (loadV4 x i) (loadV4 y i) mask
          mm_add_ps tot res)
        mm_setzero_ps)
      = ((List.range (4 * n)).map (stump_term a b x y)).sum
  | 0 => by simp [horizontal_add4_eq, mm_setzero_ps]
  | n + 1 => by
    rw [List.range_succ, List.foldl_append, List.foldl_cons, List.foldl_nil]
    simp only
    rw [horizontal_add4_add, selectf2_tot a b x y n, selectf2_chunk]
    rw [Nat.mul_succ, sum_range_add]

theorem selectf_eq_sum (a b x y : List ℚ) (count : Nat) :
    selectf a b x y count
      = ((List.range (8 * (count / 8))).map (stump_term a b x y)).sum / (count : ℚ) := by
  have hsh : count >>> 3 = count / 8 := by
    rw [Nat.shiftRight_eq_div_pow]
  rw [selectf, hsh, selectf_tot]

theorem selectf2_eq_sum (a b x y : List ℚ) (count : Nat) :
    selectf2 a b x y count
      = ((List.range (4 * (count / 4))).map (stump_term a b x y)).sum / (count : ℚ) := by
  have hsh : count >>> 2 = count / 4 := by
    rw [Nat.shiftRight_eq_div_pow]
  rw [selectf2, hsh, selectf2_tot]

theorem selectslow_eq_sum (a b x y : List ℚ) (count : Nat) :
    selectslow a b x y count
      = ((List.range count).map (stump_term a b x y)).sum / (count : ℚ) := by
  rw [selectslow]
  rw [show (fun (total : ℚ) i => total + (if a.getD i 0 ≤ b.getD i 0 then x.getD i 0 else y.getD i 0))
      = fun (total : ℚ) i => total + stump_term a b x y i from rfl]
  rw [foldl_add_map]
  ring_nf

/-! ### Claim C2: stump kernel refinement -/

/-- Claim C2: for equal-length inputs whose length is a multiple of the lane
width, the 8-wide kernel `selectf` and the 4-wide kernel `selectf2` each
return the same value as the scalar branching baseline `selectslow` (exactly,
in the idealized rational model, hence within any tolerance). -/
theorem C2_stump_kernels_match_selectslow (a b x y : List ℚ) (count : Nat) :
    (8 ∣ count → selectf a b x y count = selectslow a b x y count)
    ∧ (4 ∣ count → selectf2 a b x y count = selectslow a b x y count) := by
  constructor
  · intro h
    rw [selectf_eq_sum, selectslow_eq_sum, Nat.mul_div_cancel' h]
  · intro h
    rw [selectf2_eq_sum, selectslow_eq_sum, Nat.mul_div_cancel' h]

/-- Witness for C2 at a concrete 8-element input. -/
theorem C2_witness :
    ((8 ∣ 8) ∧ selectf [0, 0, 0, 0, 0, 0, 0, 0] [0, 0, 0, 0, 0, 0, 0, 0]
        [1, 1, 1, 1, 1, 1, 1, 1] [2, 2, 2, 2, 2, 2, 2, 2] 8
      = selectslow [0, 0, 0, 0, 0, 0, 0, 0] [0, 0, 0, 0, 0, 0, 0, 0]
        [1, 1, 1, 1, 1, 1, 1, 1] [2, 2, 2, 2, 2, 2, 2, 2] 8)
    ∧ ((4 ∣ 8) ∧ selectf2 [0, 0, 0, 0, 0, 0, 0, 0] [0, 0, 0, 0, 0, 0, 0, 0]
        [1, 1, 1, 1, 1, 1, 1, 1] [2, 2, 2, 2, 2, 2, 2, 2] 8
      = selectslow [0, 0, 0, 0, 0, 0, 0, 0] [0, 0, 0, 0, 0, 0, 0, 0]
        [1, 1, 1, 1, 1, 1, 1, 1] [2, 2, 2, 2, 2, 2, 2, 2] 8) :=
  ⟨⟨by norm_num,
    (C2_stump_kernels_match_selectslow [0, 0, 0, 0, 0, 0, 0, 0] [0, 0, 0, 0, 0, 0, 0, 0]
      [1, 1, 1, 1, 1, 1, 1, 1] [2, 2, 2, 2, 2, 2, 2, 2] 8).1 (by norm_num)⟩,
   ⟨by norm_num,
    (C2_stump_kernels_match_selectslow [0, 0, 0, 0, 0, 0, 0, 0] [0, 0, 0, 0, 0, 0, 0, 0]
      [1, 1, 1, 1, 1, 1, 1, 1] [2, 2, 2, 2, 2, 2, 2, 2] 8).2 (by norm_num)⟩⟩

/-! ### Claim C10: counts that are not lane-width multiples -/

/-- Claim C10: for a count that is not a multiple of the lane width, `selectf`
(8-wide) and `selectf2` (4-wide) sum only the first
`laneWidth * (count / laneWidth)` elements yet still divide by the full
count, silently; consequently the result differs from `selectslow` whenever
the trailing `count mod laneWidth` elements contribute a nonzero net amount. -/
theorem C10_trailing_elements_dropped (a b x y : List ℚ) (count : Nat) :
    (¬ (8 ∣ count) →
      selectf a b x y count
          = ((List.range (8 * (count / 8))).map (stump_term a b x y)).sum / (count : ℚ)
        ∧ (((List.range (count % 8)).map
              (fun j => stump_term a b x y (8 * (count / 8) + j))).sum ≠ 0 →
            selectf a b x y count ≠ selectslow a b x y count))
    ∧ (¬ (4 ∣ count) →
      selectf2 a b x y count
          = ((List.range (4 * (count / 4))).map (stump_term a b x y)).sum / (count : ℚ)
        ∧ (((List.range (count % 4)).map
              (fun j => stump_term a b x y (4 * (count / 4) + j))).sum ≠ 0 →
            selectf2 a b x y count ≠ selectslow a b x y count)) := by
  constructor
  · intro h
    refine ⟨selectf_eq_sum a b x y count, ?_⟩
    intro htr heq
    have hc0 : count ≠ 0 := by
      rintro rfl
      exact h ⟨0, rfl⟩
    have hcQ : ((count : ℚ)) ≠ 0 := Nat.cast_ne_zero.2 hc0
    rw [selectf_eq_sum, selectslow_eq_sum] at heq
    rw [show count = 8 * (count / 8) + count % 8 from (Nat.div_add_mod count 8).symm] at heq
    rw [sum_range_add] at heq
    rw [show 8 * (count / 8) + count % 8 = count from Nat.div_add_mod count 8] at heq
    rw [div_eq_div_iff hcQ hcQ] at heq
    have hz := mul_right_cancel₀ hcQ heq
    exact htr (by linarith)
  · intro h
    refine ⟨selectf2_eq_sum a b x y count, ?_⟩
    intro htr heq
    have hc0 : count ≠ 0 := by
      rintro rfl
      exact h ⟨0, rfl⟩
    have hcQ : ((count : ℚ)) ≠ 0 := Nat.cast_ne_zero.2 hc0
    rw [selectf2_eq_sum, selectslow_eq_sum] at heq
    rw [show count = 4 * (count / 4) + count % 4 from (Nat.div_add_mod count 4).symm] at heq
    rw [sum_range_add] at heq
    rw [show 4 * (count / 4) + count % 4 = count from Nat.div_add_mod count 4] at heq
    rw [div_eq_div_iff hcQ hcQ] at heq
    have hz := mul_right_cancel₀ hcQ heq
    exact htr (by linarith)

/-- Witness for C10 at the concrete count 9 (not a multiple of 8 or of 4):
the ninth element contributes 1 to the scalar sum but is dropped by both
vector kernels, so both differ from `selectslow`. -/
theorem C10_witness :
    (¬ (8 ∣ 9)) ∧ (¬ (4 ∣ 9))
    ∧ (((List.range (9 % 8)).map
          (fun j => stump_term [0, 0, 0, 0, 0, 0, 0, 0, 0] [0, 0, 0, 0, 0, 0, 0, 0, 0]
            [1, 1, 1, 1, 1, 1, 1, 1, 1] [2, 2, 2, 2, 2, 2, 2, 2, 2] (8 * (9 / 8) + j))).sum ≠ 0)
    ∧ selectf [0, 0, 0, 0, 0, 0, 0, 0, 0] [0, 0, 0, 0, 0, 0, 0, 0, 0]
        [1, 1, 1, 1, 1, 1, 1, 1, 1] [2, 2, 2, 2, 2, 2, 2, 2, 2] 9
      ≠ selectslow [0, 0, 0, 0, 0, 0, 0, 0, 0] [0, 0, 0, 0, 0, 0, 0, 0, 0]
        [1, 1, 1, 1, 1, 1, 1, 1, 1] [2, 2, 2, 2, 2, 2, 2, 2, 2] 9
    ∧ selectf2 [0, 0, 0, 0, 0, 0, 0, 0, 0] [0, 0, 0, 0, 0, 0, 0, 0, 0]
        [1, 1, 1, 1, 1, 1, 1, 1, 1] [2, 2, 2, 2, 2, 2, 2, 2, 2] 9
      ≠ selectslow [0, 0, 0, 0, 0, 0, 0, 0, 0] [0, 0, 0, 0, 0, 0, 0, 0, 0]
        [1, 1, 1, 1, 1, 1, 1, 1, 1] [2, 2, 2, 2, 2, 2, 2, 2, 2] 9 :=
  ⟨by norm_num, by norm_num,
   by norm_num [stump_term, List.range_succ],
   ((C10_trailing_elements_dropped [0, 0, 0, 0, 0, 0, 0, 0, 0] [0, 0, 0, 0, 0, 0, 0, 0, 0]
      [1, 1, 1, 1, 1, 1, 1, 1, 1] [2, 2, 2, 2, 2, 2, 2, 2, 2] 9).1 (by norm_num)).2
     (by norm_num [stump_term, List.range_succ]),
   ((C10_trailing_elements_dropped [0, 0, 0, 0, 0, 0, 0, 0, 0] [0, 0, 0, 0, 0, 0, 0, 0, 0]
      [1, 1, 1, 1, 1, 1, 1, 1, 1] [2, 2, 2, 2, 2, 2, 2, 2, 2] 9).2 (by norm_num)).2
     (by norm_num [stump_term, List.range_succ])⟩

/-! ### Claim C8: the concrete stump scenario -/

/-- Counterexample to C8 as stated: on `a=[0.2], b=[0.1], x=[5.0], y=[-5.0]`
the scalar stump baseline `selectslow` returns `-5`, not `5`: since
`0.2 <= 0.1` is false the `y` operand `-5.0` is the one taken. -/
theorem C8_counterexample :
    selectslow [1/5] [1/10] [5] [-5] 1 ≠ 5 := by
  norm_num [selectslow, List.range_succ]

/-- Claim C8 amended: the stump input `a=[0.2], b=[0.1], x=[5.0], y=[-5.0]`
evaluates to `-5.0` under `selectslow` (`0.2 <= 0.1` is false, so `y = -5.0`
is taken).  Padded to lane width with zero-contributing lanes, the vector
kernels agree with `selectslow` on the padded input, returning the same sum
`-5` divided by the padded count (`-5/8` for the 8-wide kernel, `-5/4` for
the 4-wide kernel). -/
theorem C8_stump_scenario :
    selectslow [1/5] [1/10] [5] [-5] 1 = -5
    ∧ selectf [1/5, 0, 0, 0, 0, 0, 0, 0] [1/10, 0, 0, 0, 0, 0, 0, 0]
        [5, 0, 0, 0, 0, 0, 0, 0] [-5, 0, 0, 0, 0, 0, 0, 0] 8
      = selectslow [1/5, 0, 0, 0, 0, 0, 0, 0] [1/10, 0, 0, 0, 0, 0, 0, 0]
        [5, 0, 0, 0, 0, 0, 0, 0] [-5, 0, 0, 0, 0, 0, 0, 0] 8
    ∧ selectf [1/5, 0, 0, 0, 0, 0, 0, 0] [1/10, 0, 0, 0, 0, 0, 0, 0]
        [5, 0, 0, 0, 0, 0, 0, 0] [-5, 0, 0, 0, 0, 0, 0, 0] 8 = -(5/8)
    ∧ selectf2 [1/5, 0, 0, 0] [1/10, 0, 0, 0] [5, 0, 0, 0] [-5, 0, 0, 0] 4
      = selectslow [1/5, 0, 0, 0] [1/10, 0, 0, 0] [5, 0, 0, 0] [-5, 0, 0, 0] 4
    ∧ selectf2 [1/5, 0, 0, 0] [1/10, 0, 0, 0] [5, 0, 0, 0] [-5, 0, 0, 0] 4 = -(5/4) := by
  refine ⟨by norm_num [selectslow, List.range_succ], ?_, ?_, ?_, ?_⟩
  · rw [selectf_eq_sum, selectslow_eq_sum]
  · rw [selectf_eq_sum]
    norm_num [stump_term, List.range_succ]
  · rw [selectf2_eq_sum, selectslow_eq_sum]
  · rw [selectf2_eq_sum]
    norm_num [stump_term, List.range_succ]

/-! ### vectest2.cc: scalar trees, packed dual-tree records, and the
depth-2 SIMD kernel -/

/-- One scalar tree node, as in vectest2.cc: child links, split feature
index, split threshold.  A terminal node stores its leaf value in
`splitValue`. -/
structure node where
  leftChildNodeID : Nat
  rightChildNodeID : Nat
  splitVarID : Nat
  splitValue : ℚ
deriving DecidableEq, Inhabited

/-- A scalar tree is a flat array of nodes; index 0 is the root. -/
abbrev tree := List node

/-- The traversal loop of `tree_eval`, with explicit fuel standing for the
number of remaining loop iterations (the C loop is unbounded; `none` means
the fuel ran out before a terminal node was reached). -/
def tree_eval_go (t : tree) (x : List ℚ) : Nat → Nat → Option ℚ
  | 0, _ => none
  | fuel + 1, nodeID =>
    let tn := t.getD nodeID default
    if tn.leftChildNodeID = 0 ∧ tn.rightChildNodeID = 0 then
      some tn.splitValue
    else if x.getD tn.splitVarID 0 ≤ tn.splitValue then
      tree_eval_go t x fuel tn.leftChildNodeID
    else
      tree_eval_go t x fuel tn.rightChildNodeID

/-- `tree_eval` of vectest2.cc: drop down the tree from the root (node 0)
and return the terminal node's `splitValue`.  The node count is ample fuel
for every tree shape the program builds. -/
def tree_eval (t : tree) (x : List ℚ) : ℚ :=
  (tree_eval_go t x t.length 0).getD 0

/-- `rf_eval` of vectest2.cc: sum of all scalar tree evaluations divided by
the tree count. -/
def rf_eval (f : List tree) (x : List ℚ) : ℚ :=
  (f.foldl (fun total t => total + tree_eval t x) 0) / (f.length : ℚ)

/-- `tree2` of vectest2.cc: one whole depth-2 tree packed into a fixed-size
record: three split feature indices, three thresholds, four leaf values. -/
structure tree2 where
  a_splitVarID : Nat
  c_splitVarID : Nat
  e_splitVarID : Nat
  b_splitValue : ℚ
  d_splitValue : ℚ
  f_splitValue : ℚ
  one : ℚ
  two : ℚ
  three : ℚ
  four : ℚ
deriving DecidableEq, Inhabited

/-- The combined lane mask computed inside `tree_eval_simd`: the bitwise AND
of the root-level comparison mask and the second-level comparison mask,
following the source's `_mm256_set_ps` lane assembly literally. -/
def tree_mask (t1 t2 : tree2) (x : List ℚ) : M8 :=
  let cmp1 := mm256_set_ps (x.getD t1.a_splitVarID 0) (x.getD t1.a_splitVarID 0)
    t1.b_splitValue t1.b_splitValue
    (x.getD t2.a_splitVarID 0) (x.getD t2.a_splitVarID 0)
    t2.b_splitValue t2.b_splitValue
  let cmp2 := mm256_set_ps t1.b_splitValue t1.b_splitValue
    (x.getD t1.a_splitVarID 0) (x.getD t1.a_splitVarID 0)
    t2.b_splitValue t2.b_splitValue
    (x.getD t2.a_splitVarID 0) (x.getD t2.a_splitVarID 0)
  let cmpres1 := mm256_cmp_ps_le cmp1 cmp2
  let cmp1b := mm256_set_ps (x.getD t1.c_splitVarID 0) t1.d_splitValue
    (x.getD t1.e_splitVarID 0) t1.f_splitValue
    (x.getD t2.c_splitVarID 0) t2.d_splitValue
    (x.getD t2.e_splitVarID 0) t2.f_splitValue
  let cmp2b := mm256_set_ps t1.d_splitValue (x.getD t1.c_splitVarID 0)
    t1.f_splitValue (x.getD t1.e_splitVarID 0)
    t2.d_splitValue (x.getD t2.c_splitVarID 0)
    t2.f_splitValue (x.getD t2.e_splitVarID 0)
  let cmpres2 := mm256_cmp_ps_le cmp1b cmp2b
  mm256_and_si256 cmpres1 cmpres2

/-- `tree_eval_simd` of vectest2.cc: evaluate two packed depth-2 trees in one
8-lane register and return the SUM of the two trees' selected leaf values. -/
def tree_eval_simd (t1 t2 : tree2) (x : List ℚ) : ℚ :=
  let mask := tree_mask t1 t2 x
  let res1 := mm256_set_ps t1.one t1.two t1.three t1.four t2.one t2.two t2.three t2.four
  let res2 := mm256_maskstore_ps mask res1
  horizontal_add res2

/-- `rf_eval_simd` of vectest2.cc: feed the packed forest pairwise through
the dual-tree kernel and divide by the total record count. -/
def rf_eval_simd (f : List tree2) (x : List ℚ) : ℚ :=
  ((List.range (f.length / 2)).foldl
    (fun total i =>
      total + tree_eval_simd (f.getD (2 * i) default) (f.getD (2 * i + 1) default) x)
    0) / (f.length : ℚ)

/-- `compare_rfs` of vectest2.cc, modelled as the predicate "the checker
calls abort": it walks the tree pairs and aborts at the first pair whose
scalar sum and packed kernel sum differ by more than `eps = 0.0000001`
(`List.any` short-circuits exactly like the loop's early abort). -/
def compare_rfs_aborts (f : List tree) (f2 : List tree2) (x : List ℚ) : Bool :=
  (List.range (f.length / 2)).any fun i =>
    decide ((1 : ℚ) / 10000000 <
      |tree_eval (f.getD (2 * i) []) x + tree_eval (f.getD (2 * i + 1) []) x
        - tree_eval_simd (f2.getD (2 * i) default) (f2.getD (2 * i + 1) default) x|)

/-- The repacking performed in `main` of vectest2.cc: one `tree2` record per
scalar tree, taking the three internal nodes' feature indices and thresholds
and the four terminal nodes' values, in node order. -/
def pack_tree (t : tree) : tree2 :=
  ⟨(t.getD 0 default).splitVarID, (t.getD 1 default).splitVarID, (t.getD 2 default).splitVarID,
   (t.getD 0 default).splitValue, (t.getD 1 default).splitValue, (t.getD 2 default).splitValue,
   (t.getD 3 default).splitValue, (t.getD 4 default).splitValue,
   (t.getD 5 default).splitValue, (t.getD 6 default).splitValue⟩

/-- Packing a whole scalar forest, record `i` from tree `i`. -/
def pack_forest (f : List tree) : List tree2 := f.map pack_tree

/-- The fixed depth-2 shape built by `main` of vectest2.cc: node 0 has
children (1,2), node 1 has (3,4), node 2 has (5,6), and nodes 3..6 are
terminal (both child indices 0). -/
def depth2_shape (t : tree) : Prop :=
  t.length = 7
  ∧ (t.getD 0 default).leftChildNodeID = 1 ∧ (t.getD 0 default).rightChildNodeID = 2
  ∧ (t.getD 1 default).leftChildNodeID = 3 ∧ (t.getD 1 default).rightChildNodeID = 4
  ∧ (t.getD 2 default).leftChildNodeID = 5 ∧ (t.getD 2 default).rightChildNodeID = 6
  ∧ (t.getD 3 default).leftChildNodeID = 0 ∧ (t.getD 3 default).rightChildNodeID = 0
  ∧ (t.getD 4 default).leftChildNodeID = 0 ∧ (t.getD 4 default).rightChildNodeID = 0
  ∧ (t.getD 5 default).leftChildNodeID = 0 ∧ (t.getD 5 default).rightChildNodeID = 0
  ∧ (t.getD 6 default).leftChildNodeID = 0 ∧ (t.getD 6 default).rightChildNodeID = 0

instance (t : tree) : Decidable (depth2_shape t) := by
  unfold depth2_shape
  infer_instance

/-- No feature value of `x` equals the split threshold it is compared against
in scalar tree `t`: the boundary cases the SIMD mask construction mishandles. -/
def no_split_ties (t : tree) (x : List ℚ) : Prop :=
  x.getD (t.getD 0 default).splitVarID 0 ≠ (t.getD 0 default).splitValue
  ∧ x.getD (t.getD 1 default).splitVarID 0 ≠ (t.getD 1 default).splitValue
  ∧ x.getD (t.getD 2 default).splitVarID 0 ≠ (t.getD 2 default).splitValue

/-- The packed-record version of the no-tie condition. -/
def tree2_no_ties (p : tree2) (x : List ℚ) : Prop :=
  x.getD p.a_splitVarID 0 ≠ p.b_splitValue
  ∧ x.getD p.c_splitVarID 0 ≠ p.d_splitValue
  ∧ x.getD p.e_splitVarID 0 ≠ p.f_splitValue

instance (t : tree) (x : List ℚ) : Decidable (no_split_ties t x) := by
  unfold no_split_ties
  infer_instance

instance (p : tree2) (x : List ℚ) : Decidable (tree2_no_ties p x) := by
  unfold tree2_no_ties
  infer_instance

/-- Number of true lanes in the high 4-lane half of a mask (the half that
carries the first tree of the packed pair). -/
def mask_pop_hi (m : M8) : Nat :=
  (if m.m7 then 1 else 0) + (if m.m6 then 1 else 0)
    + (if m.m5 then 1 else 0) + (if m.m4 then 1 else 0)

/-- Number of true lanes in the low 4-lane half of a mask (the half that
carries the second tree of the packed pair). -/
def mask_pop_lo (m : M8) : Nat :=
  (if m.m3 then 1 else 0) + (if m.m2 then 1 else 0)
    + (if m.m1 then 1 else 0) + (if m.m0 then 1 else 0)

/-! ### Helper lemmas for the depth-2 trees -/

theorem tree_eval_go_succ (t : tree) (x : List ℚ) (fuel i : Nat) :
    tree_eval_go t x (fuel + 1) i
      = if (t.getD i default).leftChildNodeID = 0 ∧ (t.getD i default).rightChildNodeID = 0 then
          some (t.getD i default).splitValue
        else if x.getD (t.getD i default).splitVarID 0 ≤ (t.getD i default).splitValue then
          tree_eval_go t x fuel (t.getD i default).leftChildNodeID
        else
          tree_eval_go t x fuel (t.getD i default).rightChildNodeID := rfl

theorem depth2_shape_exists (t : tree) (h : depth2_shape t) :
    ∃ v0 v1 v2 v3 v4 v5 v6 : Nat, ∃ s0 s1 s2 s3 s4 s5 s6 : ℚ,
      t = [⟨1, 2, v0, s0⟩, ⟨3, 4, v1, s1⟩, ⟨5, 6, v2, s2⟩, ⟨0, 0, v3, s3⟩,
           ⟨0, 0, v4, s4⟩, ⟨0, 0, v5, s5⟩, ⟨0, 0, v6, s6⟩] := by
  obtain ⟨hlen, h0l, h0r, h1l, h1r, h2l, h2r, h3l, h3r, h4l, h4r, h5l, h5r, h6l, h6r⟩ := h
  rcases t with _ | ⟨n0, t⟩
  · simp only [List.length_nil] at hlen
    omega
  rcases t with _ | ⟨n1, t⟩
  · simp only [List.length_cons, List.length_nil] at hlen
    omega
  rcases t with _ | ⟨n2, t⟩
  · simp only [List.length_cons, List.length_nil] at hlen
    omega
  rcases t with _ | ⟨n3, t⟩
  · simp only [List.length_cons, List.length_nil] at hlen
    omega
  rcases t with _ | ⟨n4, t⟩
  · simp only [List.length_cons, List.length_nil] at hlen
    omega
  rcases t with _ | ⟨n5, t⟩
  · simp only [List.length_cons, List.length_nil] at hlen
    omega
  rcases t with _ | ⟨n6, t⟩
  · simp only [List.length_cons, List.length_nil] at hlen
    omega
  rcases t with _ | ⟨n7, t⟩
  swap
  · simp only [List.length_cons, List.length_nil] at hlen
    omega
  obtain ⟨l0, r0, v0, s0⟩ := n0
  obtain ⟨l1, r1, v1, s1⟩ := n1
  obtain ⟨l2, r2, v2, s2⟩ := n2
  obtain ⟨l3, r3, v3, s3⟩ := n3
  obtain ⟨l4, r4, v4, s4⟩ := n4
  obtain ⟨l5, r5, v5, s5⟩ := n5
  obtain ⟨l6, r6, v6, s6⟩ := n6
  simp at h0l h0r h1l h1r h2l h2r h3l h3r h4l h4r h5l h5r h6l h6r
  subst h0l h0r h1l h1r h2l h2r h3l h3r h4l h4r h5l h5r h6l h6r
  exact ⟨v0, v1, v2, v3, v4, v5, v6, s0, s1, s2, s3, s4, s5, s6, rfl⟩

theorem tree_eval_shape (v0 v1 v2 v3 v4 v5 v6 : Nat) (s0 s1 s2 s3 s4 s5 s6 : ℚ) (x : List ℚ) :
    tree_eval [⟨1, 2, v0, s0⟩, ⟨3, 4, v1, s1⟩, ⟨5, 6, v2, s2⟩, ⟨0, 0, v3, s3⟩,
        ⟨0, 0, v4, s4⟩, ⟨0, 0, v5, s5⟩, ⟨0, 0, v6, s6⟩] x
      = if x.getD v0 0 ≤ s0 then (if x.getD v1 0 ≤ s1 then s3 else s4)
        else (if x.getD v2 0 ≤ s2 then s5 else s6) := by
  simp [tree_eval, tree_eval_go]
  split_ifs <;> rfl

theorem tree_eval_simd_eq (t1 t2 : tree2) (x : List ℚ) :
    tree_eval_simd t1 t2 x
      = ((if x.getD t1.a_splitVarID 0 ≤ t1.b_splitValue ∧ x.getD t1.c_splitVarID 0 ≤ t1.d_splitValue
            then t1.one else 0)
        + (if x.getD t1.a_splitVarID 0 ≤ t1.b_splitValue ∧ t1.d_splitValue ≤ x.getD t1.c_splitVarID 0
            then t1.two else 0)
        + (if t1.b_splitValue ≤ x.getD t1.a_splitVarID 0 ∧ x.getD t1.e_splitVarID 0 ≤ t1.f_splitValue
            then t1.three else 0)
        + (if t1.b_splitValue ≤ x.getD t1.a_splitVarID 0 ∧ t1.f_splitValue ≤ x.getD t1.e_splitVarID 0
            then t1.four else 0))
      + ((if x.getD t2.a_splitVarID 0 ≤ t2.b_splitValue ∧ x.getD t2.c_splitVarID 0 ≤ t2.d_splitValue
            then t2.one else 0)
        + (if x.getD t2.a_splitVarID 0 ≤ t2.b_splitValue ∧ t2.d_splitValue ≤ x.getD t2.c_splitVarID 0
            then t2.two else 0)
        + (if t2.b_splitValue ≤ x.getD t2.a_splitVarID 0 ∧ x.getD t2.e_splitVarID 0 ≤ t2.f_splitValue
            then t2.three else 0)
        + (if t2.b_splitValue ≤ x.getD t2.a_splitVarID 0 ∧ t2.f_splitValue ≤ x.getD t2.e_splitVarID 0
            then t2.four else 0)) := by
  simp only [tree_eval_simd, tree_mask, mm256_set_ps, mm256_cmp_ps_le, mm256_and_si256,
    mm256_maskstore_ps, horizontal_add_eq, Bool.and_eq_true, decide_eq_true_eq]
  ring

theorem stump4 (a0 b0 a1 b1 a2 b2 r1 r2 r3 r4 : ℚ)
    (h0 : a0 ≠ b0) (h1 : a1 ≠ b1) (h2 : a2 ≠ b2) :
    (if a0 ≤ b0 ∧ a1 ≤ b1 then r1 else 0) + (if a0 ≤ b0 ∧ b1 ≤ a1 then r2 else 0)
      + (if b0 ≤ a0 ∧ a2 ≤ b2 then r3 else 0) + (if b0 ≤ a0 ∧ b2 ≤ a2 then r4 else 0)
      = if a0 ≤ b0 then (if a1 ≤ b1 then r1 else r2) else (if a2 ≤ b2 then r3 else r4) := by
  rcases h0.lt_or_lt with h | h <;> rcases h1.lt_or_lt with ha | ha <;>
    rcases h2.lt_or_lt with hb | hb <;>
    simp [h.le, h.not_le, ha.le, ha.not_le, hb.le, hb.not_le]

theorem pair_equiv (t1 t2 : tree) (x : List ℚ) (h1 : depth2_shape t1) (h2 : depth2_shape t2)
    (n1 : no_split_ties t1 x) (n2 : no_split_ties t2 x) :
    tree_eval_simd (pack_tree t1) (pack_tree t2) x = tree_eval t1 x + tree_eval t2 x := by
  obtain ⟨v0, v1, v2, v3, v4, v5, v6, s0, s1, s2, s3, s4, s5, s6, rfl⟩ := depth2_shape_exists t1 h1
  obtain ⟨w0, w1, w2, w3, w4, w5, w6, u0, u1, u2, u3, u4, u5, u6, rfl⟩ := depth2_shape_exists t2 h2
  obtain ⟨hn1a, hn1b, hn1c⟩ := n1
  obtain ⟨hn2a, hn2b, hn2c⟩ := n2
  simp only [List.getD_cons_zero, List.getD_cons_succ] at hn1a hn1b hn1c hn2a hn2b hn2c
  rw [tree_eval_simd_eq, tree_eval_shape, tree_eval_shape]
  simp only [pack_tree, List.getD_cons_zero, List.getD_cons_succ]
  have e1 := stump4 (x.getD v0 0) s0 (x.getD v1 0) s1 (x.getD v2 0) s2 s3 s4 s5 s6 hn1a hn1b hn1c
  have e2 := stump4 (x.getD w0 0) u0 (x.getD w1 0) u1 (x.getD w2 0) u2 u3 u4 u5 u6 hn2a hn2b hn2c
  linear_combination e1 + e2

theorem getD_pack_forest (f : List tree) (i : Nat) (h : i < f.length) :
    (pack_forest f).getD i default = pack_tree (f.getD i default) := by
  induction f generalizing i with
  | nil => simp at h
  | cons t rest ih =>
    cases i with
    | zero => rfl
    | succ j =>
      simp only [pack_forest, List.map_cons, List.getD_cons_succ]
      exact ih j (by simpa using h)

theorem shift_getD_two {α : Type} [Inhabited α] (t1 t2 : α) (rest : List α) (i : Nat) :
    (t1 :: t2 :: rest).getD (2 * (i + 1)) default = rest.getD (2 * i) default := by
  rw [show 2 * (i + 1) = (2 * i + 1) + 1 by ring]
  rw [List.getD_cons_succ, List.getD_cons_succ]

theorem shift_getD_two_odd {α : Type} [Inhabited α] (t1 t2 : α) (rest : List α) (i : Nat) :
    (t1 :: t2 :: rest).getD (2 * (i + 1) + 1) default = rest.getD (2 * i + 1) default := by
  rw [show 2 * (i + 1) + 1 = (2 * i + 1 + 1) + 1 by ring]
  rw [List.getD_cons_succ, List.getD_cons_succ]

theorem pairsum_eq : ∀ (f : List tree) (x : List ℚ), f.length % 2 = 0 →
    (∀ t ∈ f, depth2_shape t) → (∀ t ∈ f, no_split_ties t x) →
    ((List.range (f.length / 2)).map
        (fun i => tree_eval_simd (pack_tree (f.getD (2 * i) default))
          (pack_tree (f.getD (2 * i + 1) default)) x)).sum
      = (f.map (fun t => tree_eval t x)).sum
  | [], _, _, _, _ => by simp
  | [t], _, heven, _, _ => by simp at heven
  | t1 :: t2 :: rest, x, heven, hshape, hties => by
    have heven' : rest.length % 2 = 0 := by
      simp only [List.length_cons] at heven
      omega
    have ih := pairsum_eq rest x heven'
      (fun t ht => hshape t (by simp [ht]))
      (fun t ht => hties t (by simp [ht]))
    have hlen : (t1 :: t2 :: rest).length / 2 = rest.length / 2 + 1 := by
      simp only [List.length_cons]
      omega
    rw [hlen, List.range_succ_eq_map, List.map_cons, List.sum_cons, List.map_map]
    have hpt : ((List.range (rest.length / 2)).map
          ((fun i => tree_eval_simd (pack_tree ((t1 :: t2 :: rest).getD (2 * i) default))
            (pack_tree ((t1 :: t2 :: rest).getD (2 * i + 1) default)) x) ∘ Nat.succ)).sum
        = ((List.range (rest.length / 2)).map
          (fun i => tree_eval_simd (pack_tree (rest.getD (2 * i) default))
            (pack_tree (rest.getD (2 * i + 1) default)) x)).sum := by
      refine congrArg List.sum (List.map_congr_left ?_)
      intro i _
      simp only [Function.comp_apply]
      rw [show Nat.succ i = i + 1 from rfl, shift_getD_two, shift_getD_two_odd]
    rw [hpt, ih]
    have hp := pair_equiv t1 t2 x (hshape t1 (by simp)) (hshape t2 (by simp))
      (hties t1 (by simp)) (hties t2 (by simp))
    simp only [Nat.mul_zero, List.getD_cons_zero, List.getD_cons_succ, List.map_cons,
      List.sum_cons, Nat.zero_add]
    rw [hp]
    ring

/-! ### Claim C1: ensemble refinement -/

/-- Claim C1, amended with a no-tie hypothesis: for every even-size forest of
depth-2-shaped trees and every feature vector in which no compared feature
value exactly equals its split threshold, the packed vector ensemble
evaluation equals the scalar ensemble evaluation exactly (hence within any
floating-point tolerance).  The no-tie hypothesis is necessary: at a tie the
kernel's swapped-operand masks select leaves from both root branches (see
the C1 counterexample). -/
theorem C1_rf_eval_simd_refines_rf_eval (f : List tree) (x : List ℚ)
    (heven : f.length % 2 = 0) (hshape : ∀ t ∈ f, depth2_shape t)
    (hties : ∀ t ∈ f, no_split_ties t x) :
    rf_eval_simd (pack_forest f) x = rf_eval f x := by
  rw [rf_eval_simd, rf_eval, foldl_add_map, foldl_add_map]
  have hlen : (pack_forest f).length = f.length := by
    simp [pack_forest]
  rw [hlen, zero_add, zero_add]
  have hmap : ((List.range (f.length / 2)).map
        (fun i => tree_eval_simd ((pack_forest f).getD (2 * i) default)
          ((pack_forest f).getD (2 * i + 1) default) x)).sum
      = ((List.range (f.length / 2)).map
        (fun i => tree_eval_simd (pack_tree (f.getD (2 * i) default))
          (pack_tree (f.getD (2 * i + 1) default)) x)).sum := by
    refine congrArg List.sum (List.map_congr_left ?_)
    intro i hi
    have hi' : i < f.length / 2 := List.mem_range.1 hi
    rw [getD_pack_forest f (2 * i) (by omega), getD_pack_forest f (2 * i + 1) (by omega)]
  rw [hmap, pairsum_eq f x heven hshape hties]

/-- A concrete depth-2 tree with no ties against the feature vector `[0]`:
root sends `0 <= 1` left, node 1 sends `0 <= 2` left, leaf value 10. -/
def tgood : tree :=
  [⟨1, 2, 0, 1⟩, ⟨3, 4, 0, 2⟩, ⟨5, 6, 0, 3⟩,
   ⟨0, 0, 0, 10⟩, ⟨0, 0, 0, 20⟩, ⟨0, 0, 0, 30⟩, ⟨0, 0, 0, 40⟩]

/-- Witness for C1: a concrete even forest of shaped, tie-free trees on which
the packed path and the scalar path agree. -/
theorem C1_witness :
    [tgood, tgood].length % 2 = 0 ∧ depth2_shape tgood ∧ no_split_ties tgood [0]
      ∧ rf_eval_simd (pack_forest [tgood, tgood]) [0] = rf_eval [tgood, tgood] [0] :=
  ⟨by decide, by decide, by decide,
   C1_rf_eval_simd_refines_rf_eval [tgood, tgood] [0] (by decide)
     (by
       intro t ht
       simp only [List.mem_cons, List.not_mem_nil, or_false] at ht
       rcases ht with rfl | rfl <;> decide)
     (by
       intro t ht
       simp only [List.mem_cons, List.not_mem_nil, or_false] at ht
       rcases ht with rfl | rfl <;> decide)⟩

/-- A depth-2 tree whose root comparison ties against the feature vector
`[0]` (threshold 0, feature value 0): the scalar path takes the left branch
and returns leaf 2; the packed kernel selects leaves from both branches. -/
def ttie : tree :=
  [⟨1, 2, 0, 0⟩, ⟨3, 4, 0, -1⟩, ⟨5, 6, 0, 1⟩,
   ⟨0, 0, 0, 1⟩, ⟨0, 0, 0, 2⟩, ⟨0, 0, 0, 4⟩, ⟨0, 0, 0, 8⟩]

/-- Counterexample to C1 as stated: an even forest of depth-2-shaped trees
and a covering feature vector on which the packed evaluation (6) misses the
scalar evaluation (2) by far more than the 1e-6 relative tolerance; the root
comparison ties, and the kernel adds leaves of both branches. -/
theorem C1_counterexample :
    depth2_shape ttie
      ∧ rf_eval_simd (pack_forest [ttie, ttie]) [0] = 6
      ∧ rf_eval [ttie, ttie] [0] = 2
      ∧ |rf_eval_simd (pack_forest [ttie, ttie]) [0] - rf_eval [ttie, ttie] [0]|
          > (1 / 1000000) * |rf_eval [ttie, ttie] [0]| := by
  have hsimd : rf_eval_simd (pack_forest [ttie, ttie]) [0] = 6 := by
    rw [rf_eval_simd]
    norm_num [pack_forest, pack_tree, ttie, List.range_succ, tree_eval_simd_eq]
  have hscal : rf_eval [ttie, ttie] [0] = 2 := by
    rw [rf_eval]
    norm_num [ttie, tree_eval, tree_eval_go]
  refine ⟨by decide, hsimd, hscal, ?_⟩
  rw [hsimd, hscal]
  norm_num

/-! ### Claim C3: mask exclusivity -/

theorem pop4_one (a0 b0 a1 b1 a2 b2 : ℚ) (h0 : a0 ≠ b0) (h1 : a1 ≠ b1) (h2 : a2 ≠ b2) :
    (if a0 ≤ b0 ∧ a1 ≤ b1 then 1 else 0) + (if a0 ≤ b0 ∧ b1 ≤ a1 then 1 else 0)
      + (if b0 ≤ a0 ∧ a2 ≤ b2 then 1 else 0) + (if b0 ≤ a0 ∧ b2 ≤ a2 then 1 else 0)
      = (1 : Nat) := by
  rcases h0.lt_or_lt with h | h <;> rcases h1.lt_or_lt with ha | ha <;>
    rcases h2.lt_or_lt with hb | hb <;>
    simp [h.le, h.not_le, ha.le, ha.not_le, hb.le, hb.not_le]

/-- Claim C3, amended with a no-tie hypothesis: for any packed dual-tree
record pair and feature vector in which no compared feature value exactly
equals its threshold, the combined mask of `tree_eval_simd` has exactly one
true lane in each 4-lane half.  At a tie both operand orders of the swapped
comparison are true, so the count can exceed one (see the counterexample). -/
theorem C3_mask_exclusive (t1 t2 : tree2) (x : List ℚ)
    (h1 : tree2_no_ties t1 x) (h2 : tree2_no_ties t2 x) :
    mask_pop_hi (tree_mask t1 t2 x) = 1 ∧ mask_pop_lo (tree_mask t1 t2 x) = 1 := by
  obtain ⟨h1a, h1b, h1c⟩ := h1
  obtain ⟨h2a, h2b, h2c⟩ := h2
  constructor
  · simp only [mask_pop_hi, tree_mask, mm256_set_ps, mm256_cmp_ps_le, mm256_and_si256,
      Bool.and_eq_true, decide_eq_true_eq]
    exact pop4_one _ _ _ _ _ _ h1a h1b h1c
  · simp only [mask_pop_lo, tree_mask, mm256_set_ps, mm256_cmp_ps_le, mm256_and_si256,
      Bool.and_eq_true, decide_eq_true_eq]
    exact pop4_one _ _ _ _ _ _ h2a h2b h2c

/-- Witness for C3 at a concrete tie-free record pair. -/
theorem C3_witness :
    tree2_no_ties (pack_tree tgood) [0]
      ∧ mask_pop_hi (tree_mask (pack_tree tgood) (pack_tree tgood) [0]) = 1
      ∧ mask_pop_lo (tree_mask (pack_tree tgood) (pack_tree tgood) [0]) = 1 :=
  ⟨by decide,
   (C3_mask_exclusive (pack_tree tgood) (pack_tree tgood) [0] (by decide) (by decide)).1,
   (C3_mask_exclusive (pack_tree tgood) (pack_tree tgood) [0] (by decide) (by decide)).2⟩

/-- Counterexample to C3 as stated: at a root-comparison tie the mask has two
true lanes in the first tree's 4-lane half, not one. -/
theorem C3_counterexample :
    mask_pop_hi (tree_mask (pack_tree ttie) (pack_tree ttie) [0]) = 2
      ∧ mask_pop_hi (tree_mask (pack_tree ttie) (pack_tree ttie) [0]) ≠ 1 := by
  constructor <;> decide

/-! ### Claim C4: ties resolve to the less-or-equal branch -/

/-- Claim C4, amended to the scalar path: whenever the feature value at a
non-terminal node exactly equals that node's split threshold, the scalar
traversal `tree_eval_go` moves to the LEFT child (the less-or-equal branch),
at the root and at any other level alike.  The packed kernel does not share
this behaviour: at a tie its mask selects leaves of BOTH branches (see the
counterexample), so the vector half of the original claim is false. -/
theorem C4_scalar_tie_goes_left (t : tree) (x : List ℚ) (i fuel : Nat)
    (hterm : ¬((t.getD i default).leftChildNodeID = 0
        ∧ (t.getD i default).rightChildNodeID = 0))
    (htie : x.getD (t.getD i default).splitVarID 0 = (t.getD i default).splitValue) :
    tree_eval_go t x (fuel + 1) i = tree_eval_go t x fuel (t.getD i default).leftChildNodeID := by
  rw [tree_eval_go_succ, if_neg hterm, if_pos (le_of_eq htie)]

/-- Witness for C4: the root of `ttie` ties against the feature vector `[0]`
and the traversal steps to node 1, the left child. -/
theorem C4_witness :
    (¬((ttie.getD 0 default).leftChildNodeID = 0 ∧ (ttie.getD 0 default).rightChildNodeID = 0))
      ∧ ([0] : List ℚ).getD (ttie.getD 0 default).splitVarID 0 = (ttie.getD 0 default).splitValue
      ∧ tree_eval_go ttie [0] 3 0
          = tree_eval_go ttie [0] 2 (ttie.getD 0 default).leftChildNodeID :=
  ⟨by decide, by decide, C4_scalar_tie_goes_left ttie [0] 0 2 (by decide) (by decide)⟩

/-- Counterexample to C4 as stated: at a root tie the scalar path resolves to
the left branch (leaf 2), but the packed kernel does not resolve the tie to
either branch: it returns the sum of a left-branch leaf and a right-branch
leaf (6 per tree, 12 for the pair), disagreeing with the tied scalar result. -/
theorem C4_counterexample :
    tree_eval ttie [0] = 2
      ∧ tree_eval_simd (pack_tree ttie) (pack_tree ttie) [0] = 12
      ∧ tree_eval_simd (pack_tree ttie) (pack_tree ttie) [0]
          ≠ tree_eval ttie [0] + tree_eval ttie [0] := by
  have h1 : tree_eval ttie [0] = 2 := by
    norm_num [ttie, tree_eval, tree_eval_go]
  have h2 : tree_eval_simd (pack_tree ttie) (pack_tree ttie) [0] = 12 := by
    norm_num [pack_tree, ttie, tree_eval_simd_eq]
  refine ⟨h1, h2, ?_⟩
  rw [h1, h2]
  norm_num

/-! ### Claim C5: odd forest sizes in the vector path -/

/-- Claim C5, amended: feeding an odd-size packed forest to `rf_eval_simd`
is NOT a fatal error: the function silently evaluates only the first
`2 * (n / 2)` records pairwise, ignores the final unpaired record entirely,
and still divides by the full record count `n`.  (It remains true that the
vector path has no single-tree fallback.) -/
theorem C5_odd_forest_last_record_ignored (l : List tree2) (t : tree2) (x : List ℚ)
    (heven : l.length % 2 = 0) :
    rf_eval_simd (l ++ [t]) x
      = ((List.range (l.length / 2)).map
          (fun i => tree_eval_simd (l.getD (2 * i) default) (l.getD (2 * i + 1) default) x)).sum
        / ((l.length + 1 : Nat) : ℚ) := by
  rw [rf_eval_simd, foldl_add_map, zero_add]
  have hlen : (l ++ [t]).length = l.length + 1 := by
    simp
  rw [hlen]
  have hdiv : (l.length + 1) / 2 = l.length / 2 := by
    omega
  rw [hdiv]
  have hnum : ((List.range (l.length / 2)).map
        (fun i => tree_eval_simd ((l ++ [t]).getD (2 * i) default)
          ((l ++ [t]).getD (2 * i + 1) default) x)).sum
      = ((List.range (l.length / 2)).map
        (fun i => tree_eval_simd (l.getD (2 * i) default) (l.getD (2 * i + 1) default) x)).sum := by
    refine congrArg List.sum (List.map_congr_left ?_)
    intro i hi
    have hi' : i < l.length / 2 := List.mem_range.1 hi
    rw [List.getD_append _ _ _ _ (by omega), List.getD_append _ _ _ _ (by omega)]
  rw [hnum]

/-- Witness for C5: the even prefix is empty, so the whole one-record forest
is ignored and the result is `0 / 1`. -/
theorem C5_witness :
    ([] : List tree2).length % 2 = 0
      ∧ rf_eval_simd ([] ++ [pack_tree tgood]) [0]
          = ((List.range (([] : List tree2).length / 2)).map
              (fun i => tree_eval_simd (([] : List tree2).getD (2 * i) default)
                (([] : List tree2).getD (2 * i + 1) default) [0])).sum
            / ((([] : List tree2).length + 1 : Nat) : ℚ) :=
  ⟨by decide, C5_odd_forest_last_record_ignored [] (pack_tree tgood) [0] (by decide)⟩

/-- Counterexample to C5 as stated: an odd (singleton) packed forest does not
abort; `rf_eval_simd` returns the ordinary value 0, even though the ignored
record would contribute 10 per tree (20 per pair, average 10) if paired. -/
theorem C5_counterexample :
    rf_eval_simd [pack_tree tgood] [0] = 0
      ∧ tree_eval_simd (pack_tree tgood) (pack_tree tgood) [0] = 20
      ∧ rf_eval_simd [pack_tree tgood, pack_tree tgood] [0] = 10 := by
  refine ⟨?_, ?_, ?_⟩
  · norm_num [rf_eval_simd]
  · norm_num [pack_tree, tgood, tree_eval_simd_eq]
  · rw [rf_eval_simd]
    norm_num [pack_tree, tgood, List.range_succ, tree_eval_simd_eq]

/-! ### Claim C6: the equivalence checker -/

/-- Claim C6: `compare_rfs` aborts if and only if some tree pair's scalar sum
and packed kernel sum differ by more than the fixed tolerance
`eps = 0.0000001`; when every pair agrees within tolerance it returns
normally (the model is a pure function of its inputs, so no input is
modified either way). -/
theorem C6_compare_rfs_abort_iff (f : List tree) (f2 : List tree2) (x : List ℚ) :
    compare_rfs_aborts f f2 x = true ↔
      ∃ i < f.length / 2,
        (1 : ℚ) / 10000000 <
          |tree_eval (f.getD (2 * i) []) x + tree_eval (f.getD (2 * i + 1) []) x
            - tree_eval_simd (f2.getD (2 * i) default) (f2.getD (2 * i + 1) default) x| := by
  simp [compare_rfs_aborts, List.any_eq_true, List.mem_range]

/-! ### Claim C7: the scalar traversal -/

/-- Claim C7: `tree_eval` starts the traversal at node 0; a node is treated
as terminal exactly when both its child indices are the sentinel 0, in which
case its `splitValue` field is returned as the leaf value; at a non-terminal
node the traversal moves to the left child when
`features[splitVarID] <= splitValue` and to the right child otherwise. -/
theorem C7_tree_eval_traversal (t : tree) (x : List ℚ) :
    tree_eval t x = (tree_eval_go t x t.length 0).getD 0
      ∧ ∀ fuel i,
        ((t.getD i default).leftChildNodeID = 0 ∧ (t.getD i default).rightChildNodeID = 0 →
          tree_eval_go t x (fuel + 1) i = some (t.getD i default).splitValue)
        ∧ (¬((t.getD i default).leftChildNodeID = 0
              ∧ (t.getD i default).rightChildNodeID = 0) →
            (x.getD (t.getD i default).splitVarID 0 ≤ (t.getD i default).splitValue →
              tree_eval_go t x (fuel + 1) i
                = tree_eval_go t x fuel (t.getD i default).leftChildNodeID)
            ∧ (¬(x.getD (t.getD i default).splitVarID 0 ≤ (t.getD i default).splitValue) →
              tree_eval_go t x (fuel + 1) i
                = tree_eval_go t x fuel (t.getD i default).rightChildNodeID)) := by
  refine ⟨rfl, fun fuel i => ⟨fun hterm => ?_, fun hterm => ⟨fun hle => ?_, fun hgt => ?_⟩⟩⟩
  · rw [tree_eval_go_succ, if_pos hterm]
  · rw [tree_eval_go_succ, if_neg hterm, if_pos hle]
  · rw [tree_eval_go_succ, if_neg hterm, if_neg hgt]

/-- Witness for C7 on the concrete tree `tgood` and feature vector `[0]`:
node 3 is terminal and returns its value; node 0 is non-terminal and steps to
its left child under the tied-or-less comparison; node 0 with the feature
vector `[9]` steps to its right child. -/
theorem C7_witness :
    ((tgood.getD 3 default).leftChildNodeID = 0 ∧ (tgood.getD 3 default).rightChildNodeID = 0)
      ∧ tree_eval_go tgood [0] 1 3 = some (tgood.getD 3 default).splitValue
      ∧ (¬((tgood.getD 0 default).leftChildNodeID = 0
            ∧ (tgood.getD 0 default).rightChildNodeID = 0))
      ∧ ([0] : List ℚ).getD (tgood.getD 0 default).splitVarID 0 ≤ (tgood.getD 0 default).splitValue
      ∧ tree_eval_go tgood [0] 3 0 = tree_eval_go tgood [0] 2 (tgood.getD 0 default).leftChildNodeID
      ∧ (¬(([9] : List ℚ).getD (tgood.getD 0 default).splitVarID 0
            ≤ (tgood.getD 0 default).splitValue))
      ∧ tree_eval_go tgood [9] 3 0
          = tree_eval_go tgood [9] 2 (tgood.getD 0 default).rightChildNodeID :=
  ⟨by decide,
   ((C7_tree_eval_traversal tgood [0]).2 0 3).1 (by decide),
   by decide, by decide,
   (((C7_tree_eval_traversal tgood [0]).2 2 0).2 (by decide)).1 (by decide),
   by decide,
   (((C7_tree_eval_traversal tgood [9]).2 2 0).2 (by decide)).2 (by decide)⟩

/-! ### Claim C9: termination of the traversal on shaped trees -/

/-- Claim C9: on a tree of the fixed depth-2 shape the traversal loop of
`tree_eval` reaches a terminal node after at most two comparisons: three
loop iterations of fuel suffice for every feature vector. -/
theorem C9_depth2_traversal_terminates (t : tree) (x : List ℚ) (h : depth2_shape t) :
    (tree_eval_go t x 3 0).isSome = true := by
  obtain ⟨v0, v1, v2, v3, v4, v5, v6, s0, s1, s2, s3, s4, s5, s6, rfl⟩ := depth2_shape_exists t h
  simp [tree_eval_go]
  split_ifs <;> rfl

/-- Witness for C9 on a concrete shaped tree. -/
theorem C9_witness :
    depth2_shape tgood ∧ (tree_eval_go tgood [0] 3 0).isSome = true :=
  ⟨by decide, C9_depth2_traversal_terminates tgood [0] (by decide)⟩
